import Mathlib

/-!
Verification of the command-matching core of the sudoers plugin
(plugins/sudoers/match_command.c) against its natural-language
specification.  The C code is shallowly embedded: the process-wide
mutable globals (user_cmnd, user_base, user_cmnd_dir, user_stat,
user_args, user_runchroot, safe_cmnd, cmnd_fd, the descriptor table and
the process root/cwd) become an explicit `ProcState` threaded through
the functions; the ambient filesystem and libc services (open, stat,
glob, fnmatch, regex, canon_path, digest engine) become a read-only
`Env` of response functions, since a single matching call observes them
as pure oracles.  The compile-time SUDOERS_NAME_MATCH toggle becomes a
`Mode` parameter, following the spec's design note that the
inode/name duality should be a runtime mode.
-/

namespace SudoMatch

/-- Stat record: the fields of struct stat that the matcher consults
(st_dev, st_ino, and whether st_mode has the setuid/setgid bits). -/
structure Stat where
  dev : Nat
  ino : Nat
  setid : Bool
  deriving DecidableEq, Repr

/-- An open descriptor table entry: the path the descriptor was opened
on and its close-on-exec flag. -/
structure FdEntry where
  path : String
  cloexec : Bool
  deriving DecidableEq, Repr

/-- Value of the fdexec default: always, never, or digest_only. -/
inductive Fdexec where
  | always
  | never
  | digestOnly
  deriving DecidableEq, Repr

/-- Build-mode toggle SUDOERS_NAME_MATCH: inode matching (the normal
build) or name-only matching (fuzzing / offline verification build). -/
inductive Mode where
  | inode
  | nameOnly
  deriving DecidableEq, Repr

/-- Status returned by the external path resolver set_cmnd_path. -/
inductive CmndStatus where
  | found
  | notFound
  | notFoundDot
  | notFoundError
  deriving DecidableEq, Repr

/-- Result of the external resolver set_cmnd_path: the status and the
values it stores into the process-wide user command bindings. -/
structure ResolveResult where
  status : CmndStatus
  cmnd : String
  base : String
  dir : Option String
  stat : Option Stat
  deriving DecidableEq, Repr

/-- The defaults store options consulted by the matcher. -/
structure Defaults where
  fdexec : Fdexec
  fast_glob : Bool
  intercept_allow_setid : Bool
  runchroot : Option String
  deriving DecidableEq, Repr

/-- Process-wide mutable state observable by the matching core.  `fds`
is the kernel descriptor table restricted to descriptors this process
opened; `nextFd` supplies fresh descriptor numbers.  `root` and `cwd`
stand for the process root and working directory. -/
structure ProcState where
  user_cmnd : String
  user_base : String
  user_cmnd_dir : Option String
  user_stat : Option Stat
  user_args : Option String
  user_runchroot : Option String
  safe_cmnd : Option String
  cmnd_fd : Option Nat
  fds : List (Nat × FdEntry)
  nextFd : Nat
  root : String
  cwd : String
  deriving DecidableEq, Repr

/-- Read-only responses of the filesystem and libc during one matching
call: open(2) outcomes, stat contents per path, digest verification per
path and digest list, canon_path, glob(3) expansion, fnmatch(3) and
regex results, shebang detection, existence of /dev/fd/N, strdup
success, pivot success, and the external set_cmnd_path resolver. -/
structure Env where
  openOk : String → Bool
  openEacces : String → Bool
  openExecOk : String → Bool
  statOf : String → Option Stat
  digestOk : String → List Nat → Bool
  canonPath : String → Option String
  globExpand : String → List String
  fnmatchOk : String → String → Bool → Bool
  regexCompileOk : String → Bool
  regexMatchOk : String → String → Bool
  isScriptAt : String → Bool
  devfdExists : Nat → Bool → Bool
  strdupOk : String → Bool
  pivotOk : String → Bool
  resolve : ResolveResult

/-- Prefix test on strings, computed on the underlying character
lists so that concrete instances evaluate by kernel reduction. -/
def strStartsWith (s pre : String) : Bool :=
  pre.toList.isPrefixOf s.toList

/-- Suffix test on strings, computed on the underlying character
lists. -/
def strEndsWith (s suf : String) : Bool :=
  suf.toList.isSuffixOf s.toList

/-- Character membership in a string (the C strchr test). -/
def strContainsChar (s : String) (c : Char) : Bool :=
  s.toList.contains c

/-- First n characters of a string (the prefix strncmp looks at). -/
def strTake (s : String) (n : Nat) : String :=
  ⟨s.toList.take n⟩

/-- Character of a string at an index, when in range. -/
def strCharAt? (s : String) (n : Nat) : Option Char :=
  s.toList[n]?

/-- Remainder of a string after the first n characters. -/
def strDrop (s : String) (n : Nat) : String :=
  ⟨s.toList.drop n⟩

/-- Modelled from the spec: meta-character detection over the set
backslash, question mark, star and square brackets (has_meta, whose
source file is not part of this repository). -/
def has_meta (s : String) : Bool :=
  s.toList.any fun c => c == '\\' || c == '?' || c == '*' || c == '[' || c == ']'

/-- Modelled from the spec: basename extraction (sudo_basename, whose
source file is not part of this repository): the suffix after the last
slash, or the whole string when there is no slash. -/
def sudo_basename (s : String) : String :=
  ⟨(s.toList.reverse.takeWhile fun c => c != '/').reverse⟩

/-- Directory part of a path: the prefix before the last slash
(strrchr); the length-zero case yields the empty string as in the
source's explicit handling.  Only consulted when the path contains a
slash. -/
def dirPart (s : String) : String :=
  ⟨s.toList.take (s.toList.length - (sudo_basename s).toList.length - 1)⟩

/-- Prefix of a string before its first slash (what canonicalization
sees after the source truncates at strchr's first hit). -/
def beforeFirstSlash (s : String) : String :=
  ⟨s.toList.takeWhile fun c => c != '/'⟩

/-- Lookup of a descriptor in the descriptor table. -/
def fdLookup : List (Nat × FdEntry) → Nat → Option FdEntry
  | [], _ => none
  | p :: rest, f => if p.1 = f then some p.2 else fdLookup rest f

/-- Closing a descriptor removes it from the table. -/
def closeFd (st : ProcState) (f : Nat) : ProcState :=
  { st with fds := st.fds.filter fun p => decide (p.1 ≠ f) }

/-- Close a descriptor when one is present (the C idiom
`if fd != -1 close(fd)`). -/
def closeOpt (st : ProcState) (fd : Option Nat) : ProcState :=
  match fd with
  | some f => closeFd st f
  | none => st

/-- Clearing the close-on-exec flag of a descriptor. -/
def clearCloexec (st : ProcState) (f : Nat) : ProcState :=
  { st with
    fds := st.fds.map fun p => if p.1 = f then (p.1, ⟨p.2.path, false⟩) else p }

/-- Embedding of regex_matches: compile the pattern, then apply it;
compile failure yields a non-match. -/
def regex_matches (env : Env) (pattern str : String) : Bool :=
  if env.regexCompileOk pattern then env.regexMatchOk pattern str else false

/-- Embedding of command_args_match: null args allow anything; the
two-character literal quote-quote allows only an empty command line; a
caret-to-dollar pattern is matched as a regex; anything else is matched
with fnmatch, with FNM_PATHNAME exactly for sudoedit. -/
def command_args_match (env : Env) (st : ProcState)
    (sudoers_cmnd : String) (sudoers_args : Option String) : Bool :=
  let args := st.user_args.getD ""
  match sudoers_args with
  | none => true
  | some sa =>
    if sa = "\"\"" then st.user_args.isNone
    else if strStartsWith sa "^" && strEndsWith sa "$" then
      regex_matches env sa args
    else
      env.fnmatchOk sa args (decide (sudoers_cmnd = "sudoedit"))

/-- Embedding of do_stat: stat by descriptor when one is open, else by
path.  At every call site in the source the descriptor was opened on
the very path that is also passed, so both branches observe the stat of
that path under the per-call read-only filesystem. -/
def do_stat (env : Env) (fd : Option Nat) (path : String) : Option Stat :=
  match fd with
  | some _ => env.statOf path
  | none => env.statOf path

/-- Embedding of intercept_ok: when intercepted and
intercept_allow_setid is off, a setuid/setgid target is rejected. -/
def intercept_ok (defs : Defaults) (intercepted : Bool) (sb : Stat) : Bool :=
  !(intercepted && !defs.intercept_allow_setid && sb.setid)

/-- Modelled from the spec: the digest verifier digest_matches, whose
source file is not part of this repository: an empty digest list is
vacuously satisfied; otherwise verification needs an open descriptor
and succeeds iff some listed digest matches the file's bytes. -/
def digest_matches (env : Env) (fd : Option Nat) (path : String)
    (digests : List Nat) : Bool :=
  match digests with
  | [] => true
  | _ :: _ => fd.isSome && env.digestOk path digests

/-- Embedding of open_cmnd: no open is needed unless fdexec is always
or a digest is present; otherwise open read-only non-blocking, with an
execute-only retry when read fails with EACCES and no digest is
required; a fresh descriptor gets close-on-exec set.  Returns the
success flag, the descriptor, and the new state. -/
def open_cmnd (env : Env) (defs : Defaults) (path : String)
    (digests : List Nat) (st : ProcState) : Bool × Option Nat × ProcState :=
  if defs.fdexec ≠ Fdexec.always ∧ digests = [] then (true, none, st)
  else if env.openOk path then
    (true, some st.nextFd,
      { st with fds := (st.nextFd, ⟨path, true⟩) :: st.fds,
                nextFd := st.nextFd + 1 })
  else if env.openEacces path ∧ digests = [] ∧ env.openExecOk path then
    (true, some st.nextFd,
      { st with fds := (st.nextFd, ⟨path, true⟩) :: st.fds,
                nextFd := st.nextFd + 1 })
  else (false, none, st)

/-- Embedding of is_script: whether the first two bytes of the file the
descriptor is open on are the shebang magic. -/
def is_script (env : Env) (st : ProcState) (f : Nat) : Bool :=
  match fdLookup st.fds f with
  | some e => env.isScriptAt e.path
  | none => false

/-- Embedding of set_cmnd_fd: close any previously held cmnd_fd; with
fdexec never the descriptor is closed and none published; for a script,
publish only if /dev/fd/N exists (looked up relative to the saved root
when pivoted), clearing close-on-exec, else close and publish none;
otherwise publish the descriptor as-is. -/
def set_cmnd_fd (env : Env) (defs : Defaults) (st : ProcState)
    (fd : Option Nat) (pivoted : Bool) : ProcState :=
  let st1 :=
    match st.cmnd_fd with
    | some g => closeFd st g
    | none => st
  match fd with
  | none => { st1 with cmnd_fd := none }
  | some f =>
    if defs.fdexec = Fdexec.never then
      { closeFd st1 f with cmnd_fd := none }
    else if is_script env st1 f then
      if env.devfdExists f pivoted then
        { clearCloexec st1 f with cmnd_fd := some f }
      else
        { closeFd st1 f with cmnd_fd := none }
    else { st1 with cmnd_fd := some f }

/-- Model of the C expression `strchr(s, 0) != NULL`: strchr searching
for the terminating NUL always returns a pointer to the terminator and
never NULL, so the test holds for every string. -/
def strchrNulFound (_remainder : String) : Bool := true

/-- Inode-or-name comparison used when publishing: the user stat may be
absent, otherwise device and inode must agree. -/
def user_stat_matches (us : Option Stat) (sb : Stat) : Bool :=
  match us with
  | none => true
  | some u => u.dev == sb.dev && u.ino == sb.ino

/-- Embedding of command_matches_dir, both build variants.  Inode mode:
compare canonicalized directories when possible, build
sudoers_dir/user_base, open it, stat it, apply the intercept guard,
compare inode identity with user_stat, verify the digest, and copy the
path into safe_cmnd (a failed copy is diagnosed but the function still
reports a match).  Name mode: prefix-compare user_cmnd against the
first dlen bytes of the directory and require a slash at position dlen,
then apply the subdir guard, which searches the remainder for the
terminating NUL and therefore always sends the call to the failure
exit; the open/digest publication code after it is kept as written. -/
def command_matches_dir (env : Env) (defs : Defaults) (mode : Mode)
    (st : ProcState) (sudoers_dir : String) (dlen : Nat) (pivoted : Bool)
    (intercepted : Bool) (digests : List Nat) : Bool × ProcState :=
  match mode with
  | Mode.inode =>
    let dirBad : Bool :=
      match st.user_cmnd_dir with
      | some ud =>
        match env.canonPath sudoers_dir with
        | some resolved => decide (resolved ≠ ud)
        | none => false
      | none => false
    if dirBad then (false, st)
    else
      let path := sudoers_dir ++ "/" ++ st.user_base
      let p := open_cmnd env defs path digests st
      if ¬p.1 then (false, closeOpt p.2.2 p.2.1)
      else
        match do_stat env p.2.1 path with
        | none => (false, closeOpt p.2.2 p.2.1)
        | some sudoers_stat =>
          if ¬intercept_ok defs intercepted sudoers_stat then
            (false, closeOpt p.2.2 p.2.1)
          else if user_stat_matches p.2.2.user_stat sudoers_stat then
            if ¬digest_matches env p.2.1 path digests then
              (false, closeOpt p.2.2 p.2.1)
            else if env.strdupOk path then
              (true, closeOpt { p.2.2 with safe_cmnd := some path } p.2.1)
            else
              (true, closeOpt { p.2.2 with safe_cmnd := none } p.2.1)
          else (false, closeOpt p.2.2 p.2.1)
  | Mode.nameOnly =>
    if strTake st.user_cmnd dlen = strTake sudoers_dir dlen ∧
        strCharAt? st.user_cmnd dlen = some '/' then
      if strchrNulFound (strDrop st.user_cmnd (dlen + 1)) then (false, st)
      else
        let p := open_cmnd env defs st.user_cmnd digests st
        if ¬p.1 then (false, closeOpt p.2.2 p.2.1)
        else if ¬digest_matches env p.2.1 st.user_cmnd digests then
          (false, closeOpt p.2.2 p.2.1)
        else (true, set_cmnd_fd env defs p.2.2 p.2.1 pivoted)
    else (false, st)

/-- Embedding of command_matches_all.  When user_cmnd holds a slash the
file is opened for fdexec or digest use; in inode mode a file that can
be stat'ed must also have been openable and must pass the intercept
guard, while a file that cannot be stat'ed is tolerated; the digest is
then verified and the descriptor published.  safe_cmnd is never set. -/
def command_matches_all (env : Env) (defs : Defaults) (mode : Mode)
    (st : ProcState) (pivoted intercepted : Bool) (digests : List Nat) :
    Bool × ProcState :=
  let p :=
    if strContainsChar st.user_cmnd '/' then open_cmnd env defs st.user_cmnd digests st
    else (true, none, st)
  let inodeBad : Bool :=
    if strContainsChar st.user_cmnd '/' ∧ mode = Mode.inode then
      match env.statOf st.user_cmnd with
      | some sb => !p.1 || !intercept_ok defs intercepted sb
      | none => false
    else false
  if inodeBad then (false, closeOpt p.2.2 p.2.1)
  else if ¬digest_matches env p.2.1 st.user_cmnd digests then
    (false, closeOpt p.2.2 p.2.1)
  else (true, set_cmnd_fd env defs p.2.2 p.2.1 pivoted)

/-- Embedding of command_matches_fnmatch: a relative user_cmnd is
replaced by user_cmnd_dir/user_base (failing without a known
directory); the pattern is matched with fnmatch under FNM_PATHNAME;
then args, open, stat and intercept guard (inode mode only), digest,
and descriptor publication.  safe_cmnd is never set. -/
def command_matches_fnmatch (env : Env) (defs : Defaults) (mode : Mode)
    (st : ProcState) (sudoers_cmnd : String) (sudoers_args : Option String)
    (pivoted intercepted : Bool) (digests : List Nat) : Bool × ProcState :=
  let cmndOpt : Option String :=
    if strStartsWith st.user_cmnd "/" then some st.user_cmnd
    else
      match st.user_cmnd_dir with
      | none => none
      | some d => some (d ++ "/" ++ st.user_base)
  match cmndOpt with
  | none => (false, st)
  | some cmnd =>
    if ¬env.fnmatchOk sudoers_cmnd cmnd true then (false, st)
    else if command_args_match env st sudoers_cmnd sudoers_args then
      let p := open_cmnd env defs cmnd digests st
      if ¬p.1 then (false, closeOpt p.2.2 p.2.1)
      else
        let statBad : Bool :=
          match mode with
          | Mode.inode =>
            match do_stat env p.2.1 cmnd with
            | none => true
            | some sb => !intercept_ok defs intercepted sb
          | Mode.nameOnly => false
        if statBad then (false, closeOpt p.2.2 p.2.1)
        else if ¬digest_matches env p.2.1 cmnd digests then
          (false, closeOpt p.2.2 p.2.1)
        else (true, set_cmnd_fd env defs p.2.2 p.2.1 pivoted)
    else (false, st)

/-- Embedding of command_matches_regex: identical in structure to the
fnmatch strategy, with the pattern applied through regex_matches. -/
def command_matches_regex (env : Env) (defs : Defaults) (mode : Mode)
    (st : ProcState) (sudoers_cmnd : String) (sudoers_args : Option String)
    (pivoted intercepted : Bool) (digests : List Nat) : Bool × ProcState :=
  let cmndOpt : Option String :=
    if strStartsWith st.user_cmnd "/" then some st.user_cmnd
    else
      match st.user_cmnd_dir with
      | none => none
      | some d => some (d ++ "/" ++ st.user_base)
  match cmndOpt with
  | none => (false, st)
  | some cmnd =>
    if ¬regex_matches env sudoers_cmnd cmnd then (false, st)
    else if command_args_match env st sudoers_cmnd sudoers_args then
      let p := open_cmnd env defs cmnd digests st
      if ¬p.1 then (false, closeOpt p.2.2 p.2.1)
      else
        let statBad : Bool :=
          match mode with
          | Mode.inode =>
            match do_stat env p.2.1 cmnd with
            | none => true
            | some sb => !intercept_ok defs intercepted sb
          | Mode.nameOnly => false
        if statBad then (false, closeOpt p.2.2 p.2.1)
        else if ¬digest_matches env p.2.1 cmnd digests then
          (false, closeOpt p.2.2 p.2.1)
        else (true, set_cmnd_fd env defs p.2.2 p.2.1 pivoted)
    else (false, st)

/-- Outcome of the basename pass of the glob strategy: a direct true
return through the directory matcher, a jump to the done label carrying
the candidate (which is cleared when strdup fails), or exhaustion. -/
inductive GlobBaseOut where
  | dirMatch
  | doneWith (cp : Option String)
  | exhausted
  deriving DecidableEq, Repr

/-- Embedding of the exact-path pass of command_matches_glob: for each
expansion entry, close the descriptor left from the previous iteration,
skip entries that differ from user_cmnd, and for an equal entry open,
stat, apply the intercept guard and compare inode identity; a digest
mismatch marks bad_digest and continues, a successful digest copies the
entry into safe_cmnd (cleared on strdup failure, failing closed) and
jumps to done, and an inode mismatch jumps to done with the candidate
cleared.  The result carries the done candidate (none when the loop was
exhausted), the state, the open descriptor, and the bad_digest flag. -/
def globExactLoop (env : Env) (defs : Defaults) (intercepted : Bool)
    (digests : List Nat) :
    List String → ProcState → Option Nat → Bool →
    Option (Option String) × ProcState × Option Nat × Bool
  | [], st, fd, bd => (none, st, fd, bd)
  | cp :: rest, st, fd, bd =>
    let st0 := closeOpt st fd
    if cp ≠ st0.user_cmnd then
      globExactLoop env defs intercepted digests rest st0 none bd
    else
      let p := open_cmnd env defs cp digests st0
      if ¬p.1 then globExactLoop env defs intercepted digests rest p.2.2 p.2.1 bd
      else
        match do_stat env p.2.1 cp with
        | none => globExactLoop env defs intercepted digests rest p.2.2 p.2.1 bd
        | some sb =>
          if ¬intercept_ok defs intercepted sb then
            globExactLoop env defs intercepted digests rest p.2.2 p.2.1 bd
          else if user_stat_matches p.2.2.user_stat sb then
            if ¬digest_matches env p.2.1 cp digests then
              globExactLoop env defs intercepted digests rest p.2.2 p.2.1 true
            else if env.strdupOk cp then
              (some (some cp), { p.2.2 with safe_cmnd := some cp }, p.2.1, bd)
            else
              (some none, { p.2.2 with safe_cmnd := none }, p.2.1, bd)
          else (some none, p.2.2, p.2.1, bd)

/-- Embedding of the basename pass of command_matches_glob: entries
ending in a slash delegate to the directory matcher and return true
directly on success; otherwise the entry's basename must equal
user_base; the canonicalized prefix before the entry's first slash
(the source uses strchr here, not strrchr) must agree with
user_cmnd_dir when both are known; then open, stat, intercept guard,
inode comparison and digest; on success the entry is copied into
safe_cmnd (cleared on strdup failure) and control jumps to done; every
failed check just continues with the next entry. -/
def globBaseLoop (env : Env) (defs : Defaults) (pivoted intercepted : Bool)
    (digests : List Nat) :
    List String → ProcState → Option Nat →
    GlobBaseOut × ProcState × Option Nat
  | [], st, fd => (GlobBaseOut.exhausted, st, fd)
  | cp :: rest, st, fd =>
    let st0 := closeOpt st fd
    if strEndsWith cp "/" then
      let q := command_matches_dir env defs Mode.inode st0 cp cp.length pivoted
        intercepted digests
      if q.1 then (GlobBaseOut.dirMatch, q.2, none)
      else globBaseLoop env defs pivoted intercepted digests rest q.2 none
    else if st0.user_base ≠ sudo_basename cp then
      globBaseLoop env defs pivoted intercepted digests rest st0 none
    else
      let dirBad : Bool :=
        match st0.user_cmnd_dir with
        | none => false
        | some ud =>
          if strContainsChar cp '/' then
            match env.canonPath (beforeFirstSlash cp) with
            | some resolved => decide (resolved ≠ ud)
            | none => false
          else false
      if dirBad then globBaseLoop env defs pivoted intercepted digests rest st0 none
      else
        let p := open_cmnd env defs cp digests st0
        if ¬p.1 then globBaseLoop env defs pivoted intercepted digests rest p.2.2 p.2.1
        else
          match do_stat env p.2.1 cp with
          | none => globBaseLoop env defs pivoted intercepted digests rest p.2.2 p.2.1
          | some sb =>
            if ¬intercept_ok defs intercepted sb then
              globBaseLoop env defs pivoted intercepted digests rest p.2.2 p.2.1
            else if user_stat_matches p.2.2.user_stat sb then
              if ¬digest_matches env p.2.1 cp digests then
                globBaseLoop env defs pivoted intercepted digests rest p.2.2 p.2.1
              else if env.strdupOk cp then
                (GlobBaseOut.doneWith (some cp),
                  { p.2.2 with safe_cmnd := some cp }, p.2.1)
              else
                (GlobBaseOut.doneWith none,
                  { p.2.2 with safe_cmnd := none }, p.2.1)
            else globBaseLoop env defs pivoted intercepted digests rest p.2.2 p.2.1

/-- Embedding of the done label of command_matches_glob: with a live
candidate, a successful argument match publishes the descriptor and
returns true; every other path closes the descriptor and fails. -/
def globFinish (env : Env) (defs : Defaults) (st : ProcState)
    (sudoers_cmnd : String) (sudoers_args : Option String) (pivoted : Bool)
    (cp : Option String) (fd : Option Nat) : Bool × ProcState :=
  match cp with
  | some _ =>
    if command_args_match env st sudoers_cmnd sudoers_args then
      (true, set_cmnd_fd env defs st fd pivoted)
    else (false, closeOpt st fd)
  | none => (false, closeOpt st fd)

/-- Embedding of command_matches_glob.  Name mode delegates to the
fnmatch strategy.  Inode mode: short-circuit without expansion when the
pattern does not end in a slash, its basename has no meta characters
and differs from user_base; an empty or failed expansion fails; the
exact-path pass runs when user_cmnd is absolute, and the basename pass
runs only when no digest mismatch poisoned the match. -/
def command_matches_glob (env : Env) (defs : Defaults) (mode : Mode)
    (st : ProcState) (sudoers_cmnd : String) (sudoers_args : Option String)
    (pivoted intercepted : Bool) (digests : List Nat) : Bool × ProcState :=
  match mode with
  | Mode.nameOnly =>
    command_matches_fnmatch env defs mode st sudoers_cmnd sudoers_args pivoted
      intercepted digests
  | Mode.inode =>
    if strEndsWith sudoers_cmnd "/" = false ∧
        has_meta (sudo_basename sudoers_cmnd) = false ∧
        st.user_base ≠ sudo_basename sudoers_cmnd then (false, st)
    else
      match env.globExpand sudoers_cmnd with
      | [] => (false, st)
      | e :: es =>
        let ex :=
          if strStartsWith st.user_cmnd "/" then
            globExactLoop env defs intercepted digests (e :: es) st none false
          else (none, st, none, false)
        match ex.1 with
        | some cp =>
          globFinish env defs ex.2.1 sudoers_cmnd sudoers_args pivoted cp ex.2.2.1
        | none =>
          if ex.2.2.2 then
            globFinish env defs ex.2.1 sudoers_cmnd sudoers_args pivoted none ex.2.2.1
          else
            let bo := globBaseLoop env defs pivoted intercepted digests (e :: es)
              ex.2.1 ex.2.2.1
            match bo.1 with
            | GlobBaseOut.dirMatch => (true, bo.2.1)
            | GlobBaseOut.doneWith cp =>
              globFinish env defs bo.2.1 sudoers_cmnd sudoers_args pivoted cp bo.2.2
            | GlobBaseOut.exhausted =>
              globFinish env defs bo.2.1 sudoers_cmnd sudoers_args pivoted none bo.2.2

/-- Embedding of command_matches_normal, both build variants.  A rule
ending in a slash delegates to the directory matcher.  Inode mode:
require equal basenames, compare the canonicalized parent directories
when possible, open, then either compare inode identity under the
intercept guard (when both stats are available) or fall back to string
equality of the paths; then args, digest, copy into safe_cmnd (failing
closed when the copy fails) and publish.  Name mode: require string
equality, then args, open, digest, copy and publish. -/
def command_matches_normal (env : Env) (defs : Defaults) (mode : Mode)
    (st : ProcState) (sudoers_cmnd : String) (sudoers_args : Option String)
    (pivoted intercepted : Bool) (digests : List Nat) : Bool × ProcState :=
  match mode with
  | Mode.inode =>
    if strEndsWith sudoers_cmnd "/" then
      command_matches_dir env defs mode st sudoers_cmnd sudoers_cmnd.length
        pivoted intercepted digests
    else if st.user_base ≠ sudo_basename sudoers_cmnd then (false, st)
    else
      let dirBad : Bool :=
        match st.user_cmnd_dir with
        | none => false
        | some ud =>
          if strContainsChar sudoers_cmnd '/' then
            match env.canonPath (dirPart sudoers_cmnd) with
            | some resolved => decide (resolved ≠ ud)
            | none => false
          else false
      if dirBad then (false, st)
      else
        let p := open_cmnd env defs sudoers_cmnd digests st
        if ¬p.1 then (false, closeOpt p.2.2 p.2.1)
        else
          let okPath : Bool :=
            match p.2.2.user_stat, do_stat env p.2.1 sudoers_cmnd with
            | some us, some sb =>
              intercept_ok defs intercepted sb &&
                us.dev == sb.dev && us.ino == sb.ino
            | _, _ => decide (p.2.2.user_cmnd = sudoers_cmnd)
          if ¬okPath then (false, closeOpt p.2.2 p.2.1)
          else if ¬command_args_match env p.2.2 sudoers_cmnd sudoers_args then
            (false, closeOpt p.2.2 p.2.1)
          else if ¬digest_matches env p.2.1 sudoers_cmnd digests then
            (false, closeOpt p.2.2 p.2.1)
          else if env.strdupOk sudoers_cmnd then
            (true, set_cmnd_fd env defs
              { p.2.2 with safe_cmnd := some sudoers_cmnd } p.2.1 pivoted)
          else
            (false, closeOpt { p.2.2 with safe_cmnd := none } p.2.1)
  | Mode.nameOnly =>
    if strEndsWith sudoers_cmnd "/" then
      command_matches_dir env defs mode st sudoers_cmnd sudoers_cmnd.length
        pivoted intercepted digests
    else if st.user_cmnd = sudoers_cmnd then
      if command_args_match env st sudoers_cmnd sudoers_args then
        let p := open_cmnd env defs st.user_cmnd digests st
        if ¬p.1 then (false, closeOpt p.2.2 p.2.1)
        else if ¬digest_matches env p.2.1 st.user_cmnd digests then
          (false, closeOpt p.2.2 p.2.1)
        else if env.strdupOk sudoers_cmnd then
          (true, set_cmnd_fd env defs
            { p.2.2 with safe_cmnd := some sudoers_cmnd } p.2.1 pivoted)
        else
          (false, closeOpt { p.2.2 with safe_cmnd := none } p.2.1)
      else (false, st)
    else (false, st)

/-- Embedding of the chroot reconciliation at the top of
command_matches: with a user-supplied chroot the rule's chroot must be
absent, the literal star, or equal to the user's (else the call fails)
and the user's chroot becomes effective; with no rule chroot the global
default applies when set and not the star; a rule-specific chroot
becomes effective and requires re-resolving the user command
(reset_cmnd).  Returns none on the conflict, else the effective chroot
and the reset flag. -/
def chroot_plan (defs : Defaults) (st : ProcState)
    (runchroot : Option String) : Option (Option String × Bool) :=
  match st.user_runchroot with
  | some ur =>
    match runchroot with
    | some rc => if rc ≠ "*" ∧ rc ≠ ur then none else some (some ur, false)
    | none => some (some ur, false)
  | none =>
    match runchroot with
    | none =>
      match defs.runchroot with
      | some dr => if dr ≠ "*" then some (some dr, false) else some (none, false)
      | none => some (none, false)
    | some rc => some (some rc, true)

/-- Modelled from the spec: pivot_root (whose source file is not part
of this repository) saves the current root and working directory,
changes root to the new root and the working directory to the root, and
on failure changes nothing.  Returns the pivoted state and the saved
root and working directory on success. -/
def pivot_root (env : Env) (st : ProcState) (newroot : String) :
    Option (ProcState × (String × String)) :=
  if env.pivotOk newroot then
    some ({ st with root := newroot, cwd := "/" }, (st.root, st.cwd))
  else none

/-- Modelled from the spec: unpivot_root (whose source file is not part
of this repository) restores the root and working directory from the
saved descriptors; with no saved descriptors it is a no-op. -/
def unpivot_root (st : ProcState) (saved : Option (String × String)) :
    ProcState :=
  match saved with
  | some rc => { st with root := rc.1, cwd := rc.2 }
  | none => st

/-- Modelled from the spec: set_cmnd_path (whose source file is not
part of this repository) re-resolves the user command inside the new
root and updates user_cmnd, user_base, user_cmnd_dir and user_stat.
The dispatcher saves the pre-pivot user_cmnd and user_stat for
restoration, but discards the saved value when resolution did not
report FOUND. -/
def apply_reset (env : Env) (st : ProcState) :
    ProcState × Option (String × Option Stat) :=
  let r := env.resolve
  let saved :=
    if r.status = CmndStatus.found then some (st.user_cmnd, st.user_stat)
    else none
  ({ st with user_cmnd := r.cmnd, user_base := r.base,
             user_cmnd_dir := r.dir, user_stat := r.stat }, saved)

/-- Restoration of the saved user_cmnd and user_stat at the done label
of command_matches (only those two bindings are restored there). -/
def restore_user (st : ProcState) (saved : Option (String × Option Stat)) :
    ProcState :=
  match saved with
  | some s => { st with user_cmnd := s.1, user_stat := s.2 }
  | none => st

/-- Embedding of the strategy selection of command_matches: a null rule
command is ALL; a leading caret selects the regex strategy; a command
not starting with a slash is a pseudo-command matching only when it is
the literal list or sudoedit, equals user_cmnd, and the args match; a
command with meta characters selects fast-glob (fnmatch) or glob
depending on the fast_glob default; anything else is the normal
strategy. -/
def command_matches_strategy (env : Env) (defs : Defaults) (mode : Mode)
    (st : ProcState) (sudoers_cmnd sudoers_args : Option String)
    (pivoted intercepted : Bool) (digests : List Nat) : Bool × ProcState :=
  match sudoers_cmnd with
  | none => command_matches_all env defs mode st pivoted intercepted digests
  | some sc =>
    if strStartsWith sc "^" then
      command_matches_regex env defs mode st sc sudoers_args pivoted
        intercepted digests
    else if ¬strStartsWith sc "/" then
      if sc = "list" ∨ sc = "sudoedit" then
        if st.user_cmnd = sc ∧ command_args_match env st sc sudoers_args then
          (true, st)
        else (false, st)
      else (false, st)
    else if has_meta sc then
      if defs.fast_glob then
        command_matches_fnmatch env defs mode st sc sudoers_args pivoted
          intercepted digests
      else
        command_matches_glob env defs mode st sc sudoers_args pivoted
          intercepted digests
    else
      command_matches_normal env defs mode st sc sudoers_args pivoted
        intercepted digests

/-- State on which the selected strategy runs: the input state after
the pivot and after the optional re-resolution of the user command. -/
def mid_state (env : Env) (st : ProcState) (plan : Option String × Bool) :
    ProcState :=
  match plan.1 with
  | none => st
  | some nr =>
    match pivot_root env st nr with
    | none => st
    | some pr => if plan.2 then (apply_reset env pr.1).1 else pr.1

/-- Embedding of command_matches: chroot reconciliation (a conflict
fails immediately), pivot into the effective chroot (a pivot failure
fails), optional re-resolution of the user command, strategy dispatch,
then unconditional unpivot and restoration of the saved user command
bindings.  The cmnd_info argument contributes only its intercepted
flag to the decision, which is what this embedding passes. -/
def command_matches (env : Env) (defs : Defaults) (mode : Mode)
    (st : ProcState) (sudoers_cmnd sudoers_args runchroot : Option String)
    (intercepted : Bool) (digests : List Nat) : Bool × ProcState :=
  match chroot_plan defs st runchroot with
  | none => (false, st)
  | some plan =>
    match plan.1 with
    | none =>
      command_matches_strategy env defs mode st sudoers_cmnd sudoers_args
        false intercepted digests
    | some nr =>
      match pivot_root env st nr with
      | none => (false, st)
      | some pr =>
        let stReset := if plan.2 then (apply_reset env pr.1).1 else pr.1
        let savedUser := if plan.2 then (apply_reset env pr.1).2 else none
        let r := command_matches_strategy env defs mode stReset sudoers_cmnd
          sudoers_args true intercepted digests
        (r.1, restore_user (unpivot_root r.2 (some pr.2)) savedUser)

/-- Conditions under which the dispatcher hands the call to the glob
strategy proper (inode mode, meta characters, fast_glob off). -/
def selects_glob (defs : Defaults) (mode : Mode)
    (sudoers_cmnd : Option String) : Bool :=
  match sudoers_cmnd with
  | none => false
  | some sc =>
    !strStartsWith sc "^" && strStartsWith sc "/" && has_meta sc &&
      !defs.fast_glob && decide (mode = Mode.inode)

/-! Concrete fixtures used by witnesses and counterexamples. -/

/-- Test environment: every open succeeds, /bin/ls exists with inode
(1,2), the pattern /bin/l* expands to /bin/ls, digests never match,
fnmatch and regex never match, strdup succeeds. -/
def baseEnv : Env := {
  openOk := fun _ => true
  openEacces := fun _ => false
  openExecOk := fun _ => false
  statOf := fun s => if s = "/bin/ls" then some ⟨1, 2, false⟩ else none
  digestOk := fun _ _ => false
  canonPath := fun _ => none
  globExpand := fun s => if s = "/bin/l*" then ["/bin/ls"] else []
  fnmatchOk := fun _ _ _ => false
  regexCompileOk := fun _ => true
  regexMatchOk := fun _ _ => false
  isScriptAt := fun _ => false
  devfdExists := fun _ _ => true
  strdupOk := fun _ => true
  pivotOk := fun _ => true
  resolve := ⟨CmndStatus.found, "", "", none, none⟩ }

/-- Test defaults: fdexec never, fast_glob off, setid intercepts
allowed, no global runchroot. -/
def baseDefs : Defaults := ⟨Fdexec.never, false, true, none⟩

/-- Test defaults with fdexec always. -/
def alwaysDefs : Defaults := ⟨Fdexec.always, false, true, none⟩

/-- Test state: the user resolved ls to /bin/ls with inode (1,2). -/
def baseSt : ProcState := {
  user_cmnd := "/bin/ls"
  user_base := "ls"
  user_cmnd_dir := none
  user_stat := some ⟨1, 2, false⟩
  user_args := none
  user_runchroot := none
  safe_cmnd := none
  cmnd_fd := none
  fds := []
  nextFd := 3
  root := "/"
  cwd := "/home" }

/-- Environment for the allocation-failure runs: strdup always fails
and every path stats to inode (1,2). -/
def noAllocEnv : Env :=
  { baseEnv with statOf := fun _ => some ⟨1, 2, false⟩, strdupOk := fun _ => false }

/-- State for the directory-matcher allocation-failure run. -/
def dirAllocSt : ProcState :=
  { baseSt with safe_cmnd := some "/old", user_stat := none }

/-- Environment for the digest-poisoning run: the expansion of /opt/*
holds /opt/a/tool (the user command, whose digest mismatches) and
/opt/b/tool (same inode identity, digest matches). -/
def poisonEnv : Env :=
  { baseEnv with
      globExpand := fun _ => ["/opt/a/tool", "/opt/b/tool"]
      statOf := fun s =>
        if s = "/opt/a/tool" then some ⟨1, 2, false⟩
        else if s = "/opt/b/tool" then some ⟨1, 2, false⟩ else none
      digestOk := fun s _ => s == "/opt/b/tool" }

/-- State for the digest-poisoning run. -/
def poisonSt : ProcState :=
  { baseSt with user_cmnd := "/opt/a/tool", user_base := "tool" }

/-- State with a user-supplied chroot. -/
def chrootSt : ProcState := { baseSt with user_runchroot := some "/srv/a" }

/-- State whose user command is the pseudo-command list. -/
def pseudoSt : ProcState := { baseSt with user_cmnd := "list", user_base := "list" }

/-- Environment where every file is a shebang script. -/
def scriptEnv : Env := { baseEnv with isScriptAt := fun _ => true }

/-- State holding two open descriptors, descriptor 4 being the
previously published cmnd_fd. -/
def scriptSt : ProcState :=
  { baseSt with
      fds := [(7, ⟨"/usr/local/bin/deploy", true⟩), (4, ⟨"/x", true⟩)]
      cmnd_fd := some 4 }

/-- Environment where every open fails (and not with EACCES). -/
def noOpenEnv : Env := { baseEnv with openOk := fun _ => false }

/-! State-preservation lemmas: descriptor bookkeeping never touches the
published safe_cmnd nor the user command bindings. -/

@[simp]
theorem closeFd_safe_cmnd (st : ProcState) (f : Nat) :
    (closeFd st f).safe_cmnd = st.safe_cmnd := rfl

@[simp]
theorem closeOpt_safe_cmnd (st : ProcState) (fd : Option Nat) :
    (closeOpt st fd).safe_cmnd = st.safe_cmnd := by
  cases fd <;> rfl

@[simp]
theorem clearCloexec_safe_cmnd (st : ProcState) (f : Nat) :
    (clearCloexec st f).safe_cmnd = st.safe_cmnd := rfl

@[simp]
theorem open_cmnd_safe_cmnd (env : Env) (defs : Defaults) (path : String)
    (digests : List Nat) (st : ProcState) :
    ((open_cmnd env defs path digests st).2.2).safe_cmnd = st.safe_cmnd := by
  unfold open_cmnd
  repeat' split
  all_goals rfl

@[simp]
theorem set_cmnd_fd_safe_cmnd (env : Env) (defs : Defaults) (st : ProcState)
    (fd : Option Nat) (pivoted : Bool) :
    (set_cmnd_fd env defs st fd pivoted).safe_cmnd = st.safe_cmnd := by
  unfold set_cmnd_fd
  dsimp only
  repeat' split
  all_goals rfl

@[simp]
theorem closeOpt_user_cmnd (st : ProcState) (fd : Option Nat) :
    (closeOpt st fd).user_cmnd = st.user_cmnd := by
  cases fd <;> rfl

@[simp]
theorem closeOpt_user_stat (st : ProcState) (fd : Option Nat) :
    (closeOpt st fd).user_stat = st.user_stat := by
  cases fd <;> rfl

@[simp]
theorem open_cmnd_user_cmnd (env : Env) (defs : Defaults) (path : String)
    (digests : List Nat) (st : ProcState) :
    ((open_cmnd env defs path digests st).2.2).user_cmnd = st.user_cmnd := by
  unfold open_cmnd
  repeat' split
  all_goals rfl

@[simp]
theorem open_cmnd_user_stat (env : Env) (defs : Defaults) (path : String)
    (digests : List Nat) (st : ProcState) :
    ((open_cmnd env defs path digests st).2.2).user_stat = st.user_stat := by
  unfold open_cmnd
  repeat' split
  all_goals rfl

/-! Claim theorems. -/

/-- Claim C3 (code bug exhibited): in name-match mode the
directory-prefix matcher returns false on every input and leaves the
state unchanged, because its subdir guard searches the remainder of
user_cmnd for the terminating NUL, which strchr always finds; the claim
(like the function's own comments) instead requires acceptance when the
prefix shape and the open and digest checks pass. -/
theorem claim_C3_theorem (env : Env) (defs : Defaults) (st : ProcState)
    (sudoers_dir : String) (dlen : Nat) (pivoted intercepted : Bool)
    (digests : List Nat) :
    command_matches_dir env defs Mode.nameOnly st sudoers_dir dlen pivoted
      intercepted digests = (false, st) := by
  unfold command_matches_dir
  simp [strchrNulFound]

/-- Claim C5: when the user supplied a chroot and the rule names a
different one (neither the star nor the user's), command_matches fails
during chroot reconciliation and returns with the state - in particular
the process root and working directory - exactly as it was. -/
theorem claim_C5_theorem (env : Env) (defs : Defaults) (mode : Mode)
    (st : ProcState) (sudoers_cmnd sudoers_args : Option String)
    (intercepted : Bool) (digests : List Nat) (ur rc : String)
    (h1 : st.user_runchroot = some ur) (h2 : rc ≠ "*") (h3 : rc ≠ ur) :
    command_matches env defs mode st sudoers_cmnd sudoers_args (some rc)
      intercepted digests = (false, st) := by
  unfold command_matches chroot_plan
  rw [h1]
  simp [h2, h3]

/-- Witness for C5 at a concrete input: user chroot /srv/a against rule
chroot /srv/b. -/
theorem claim_C5_witness :
    command_matches baseEnv baseDefs Mode.inode chrootSt (some "/bin/ls") none
      (some "/srv/b") false [] = (false, chrootSt) :=
  claim_C5_theorem baseEnv baseDefs Mode.inode chrootSt (some "/bin/ls") none
    false [] "/srv/a" "/srv/b" rfl (by decide) (by decide)

/-- Claim C9: the inode-mode glob strategy short-circuits - for a
pattern not ending in a slash whose basename has no meta characters and
differs from user_base, the result is false with the state unchanged,
for every environment and hence independently of the filesystem glob
expansion. -/
theorem claim_C9_theorem (env : Env) (defs : Defaults) (st : ProcState)
    (sudoers_cmnd : String) (sudoers_args : Option String)
    (pivoted intercepted : Bool) (digests : List Nat)
    (h1 : strEndsWith sudoers_cmnd "/" = false)
    (h2 : has_meta (sudo_basename sudoers_cmnd) = false)
    (h3 : st.user_base ≠ sudo_basename sudoers_cmnd) :
    command_matches_glob env defs Mode.inode st sudoers_cmnd sudoers_args
      pivoted intercepted digests = (false, st) := by
  unfold command_matches_glob
  simp [h1, h2, h3]

/-- Witness for C9 at a concrete input: pattern /b*n/tool (meta only in
the directory part) against user basename ls. -/
theorem claim_C9_witness :
    command_matches_glob baseEnv baseDefs Mode.inode baseSt "/b*n/tool" none
      false false [] = (false, baseSt) :=
  claim_C9_theorem baseEnv baseDefs baseSt "/b*n/tool" none false false []
    (by decide) (by decide) (by decide)

/-- Claim C10: in inode mode the ALL strategy rejects a user command
containing a slash whose open attempt failed while its stat succeeds,
whatever the digest list (including the empty one): the tolerance of
open failure only covers files that cannot be stat'ed. -/
theorem claim_C10_theorem (env : Env) (defs : Defaults) (st : ProcState)
    (pivoted intercepted : Bool) (digests : List Nat) (sb : Stat)
    (h1 : strContainsChar st.user_cmnd '/' = true)
    (h2 : (open_cmnd env defs st.user_cmnd digests st).1 = false)
    (h3 : env.statOf st.user_cmnd = some sb) :
    (command_matches_all env defs Mode.inode st pivoted intercepted
      digests).1 = false := by
  unfold command_matches_all
  simp [h1, h2, h3]

/-- Witness for C10 at a concrete input: fdexec always forces an open,
the open fails, /bin/ls can still be stat'ed, digest list empty. -/
theorem claim_C10_witness :
    (command_matches_all noOpenEnv alwaysDefs Mode.inode baseSt false false
      []).1 = false :=
  claim_C10_theorem noOpenEnv alwaysDefs baseSt false false [] ⟨1, 2, false⟩
    (by decide) (by decide) (by decide)

/-- Claim C7: characterization of the argument matcher - it accepts
iff the rule has no args pattern, or the pattern is the two-character
literal of quotes and the user supplied no args, or the pattern is
caret-to-dollar, compiles, and regex-matches the user's args (the empty
string when absent), or otherwise fnmatch accepts with the
path-separator flag set exactly for sudoedit. -/
theorem claim_C7_theorem (env : Env) (st : ProcState) (sc : String)
    (pat : Option String) :
    command_args_match env st sc pat = true ↔
      (pat = none
       ∨ (pat = some "\"\"" ∧ st.user_args = none)
       ∨ (∃ sa, pat = some sa ∧ sa ≠ "\"\"" ∧ strStartsWith sa "^" = true ∧
            strEndsWith sa "$" = true ∧ env.regexCompileOk sa = true ∧
            env.regexMatchOk sa (st.user_args.getD "") = true)
       ∨ (∃ sa, pat = some sa ∧ sa ≠ "\"\"" ∧
            ¬(strStartsWith sa "^" = true ∧ strEndsWith sa "$" = true) ∧
            env.fnmatchOk sa (st.user_args.getD "")
              (decide (sc = "sudoedit")) = true)) := by
  cases pat with
  | none => simp [command_args_match]
  | some sa =>
    unfold command_args_match regex_matches
    dsimp only
    repeat' split
    all_goals simp_all [Option.isNone_iff_eq_none, Bool.and_eq_true]

/-- Lookup after closing a descriptor: the closed one is gone, the
others are untouched. -/
theorem fdLookup_filterNe (l : List (Nat × FdEntry)) (f k : Nat) :
    fdLookup (l.filter fun p => decide (p.1 ≠ f)) k =
      if k = f then none else fdLookup l k := by
  induction l with
  | nil => simp [fdLookup]
  | cons p rest ih =>
    simp only [List.filter_cons]
    by_cases hp : p.1 = f
    · rw [if_neg (by simp [hp])]
      rw [ih]
      by_cases hk : k = f
      · simp [hk]
      · simp only [if_neg hk, fdLookup]
        rw [if_neg (fun hc : p.1 = k => hk (hc.symm.trans hp))]
    · rw [if_pos (by simp [hp])]
      simp only [fdLookup]
      by_cases hpk : p.1 = k
      · have hkf : ¬k = f := fun h => hp (hpk.trans h)
        simp [hpk, hkf]
      · rw [if_neg hpk, ih]
        by_cases hk : k = f <;> simp [hk, fdLookup, hpk]

/-- Lookup after clearing close-on-exec: the cleared descriptor is seen
with the flag off, the others are untouched. -/
theorem fdLookup_clear (l : List (Nat × FdEntry)) (f k : Nat) :
    fdLookup (l.map fun p => if p.1 = f then (p.1, ⟨p.2.path, false⟩) else p) k =
      if k = f then (fdLookup l k).map fun e => (⟨e.path, false⟩ : FdEntry)
      else fdLookup l k := by
  induction l with
  | nil => simp [fdLookup]
  | cons p rest ih =>
    simp only [List.map_cons]
    by_cases hp : p.1 = f
    · rw [if_pos hp]
      simp only [fdLookup]
      by_cases hpk : p.1 = k
      · have hk : k = f := hpk.symm.trans hp
        simp [hpk, hk, fdLookup]
      · rw [if_neg hpk, ih]
        simp [fdLookup, hpk]
    · rw [if_neg hp]
      simp only [fdLookup]
      by_cases hpk : p.1 = k
      · have hkf : ¬k = f := fun h => hp (hpk.trans h)
        simp [hpk, hkf]
      · rw [if_neg hpk, ih]
        simp [fdLookup, hpk]

/-- Claim C8: handed a real descriptor on a shebang script with fdexec
not never, set_cmnd_fd publishes the descriptor iff /dev/fd/N exists -
clearing its close-on-exec flag - and otherwise closes it and publishes
none; in both cases, the previously held cmnd_fd is closed. -/
theorem claim_C8_theorem (env : Env) (defs : Defaults) (st : ProcState)
    (f g : Nat) (entry : FdEntry) (pivoted : Bool)
    (hf : fdLookup st.fds f = some entry)
    (hg : st.cmnd_fd = some g)
    (hgf : g ≠ f)
    (hnev : defs.fdexec ≠ Fdexec.never)
    (hscript : env.isScriptAt entry.path = true) :
    (env.devfdExists f pivoted = true →
      (set_cmnd_fd env defs st (some f) pivoted).cmnd_fd = some f ∧
      fdLookup (set_cmnd_fd env defs st (some f) pivoted).fds f =
        some ⟨entry.path, false⟩) ∧
    (env.devfdExists f pivoted = false →
      (set_cmnd_fd env defs st (some f) pivoted).cmnd_fd = none ∧
      fdLookup (set_cmnd_fd env defs st (some f) pivoted).fds f = none) ∧
    fdLookup (set_cmnd_fd env defs st (some f) pivoted).fds g = none := by
  have hlf1 : fdLookup (closeFd st g).fds f = some entry := by
    unfold closeFd
    dsimp only
    rw [fdLookup_filterNe, if_neg fun h => hgf h.symm, hf]
  have hlg1 : fdLookup (closeFd st g).fds g = none := by
    unfold closeFd
    dsimp only
    rw [fdLookup_filterNe, if_pos rfl]
  have hscript1 : is_script env (closeFd st g) f = true := by
    unfold is_script
    rw [hlf1]
    exact hscript
  unfold set_cmnd_fd
  rw [hg]
  dsimp only
  rw [if_neg hnev, if_pos hscript1]
  by_cases hdev : env.devfdExists f pivoted = true
  · rw [if_pos hdev]
    refine ⟨fun _ => ⟨rfl, ?_⟩, fun hc => ?_, ?_⟩
    · show fdLookup (clearCloexec (closeFd st g) f).fds f = _
      unfold clearCloexec
      dsimp only
      rw [fdLookup_clear, if_pos rfl, hlf1]
      rfl
    · rw [hdev] at hc
      exact Bool.noConfusion hc
    · show fdLookup (clearCloexec (closeFd st g) f).fds g = none
      unfold clearCloexec
      dsimp only
      rw [fdLookup_clear, if_neg hgf, hlg1]
  · rw [if_neg hdev]
    refine ⟨fun hc => absurd hc hdev, fun _ => ⟨rfl, ?_⟩, ?_⟩
    · show fdLookup (closeFd (closeFd st g) f).fds f = none
      unfold closeFd
      dsimp only
      rw [fdLookup_filterNe, if_pos rfl]
    · show fdLookup (closeFd (closeFd st g) f).fds g = none
      unfold closeFd
      dsimp only
      rw [fdLookup_filterNe, if_neg hgf]
      rw [fdLookup_filterNe, if_pos rfl]

/-- Witness for C8 at a concrete input: descriptor 7 open on a script,
descriptor 4 previously published, fdexec always, /dev/fd present. -/
theorem claim_C8_witness :
    (scriptEnv.devfdExists 7 false = true →
      (set_cmnd_fd scriptEnv alwaysDefs scriptSt (some 7) false).cmnd_fd =
        some 7 ∧
      fdLookup (set_cmnd_fd scriptEnv alwaysDefs scriptSt (some 7) false).fds 7 =
        some ⟨"/usr/local/bin/deploy", false⟩) ∧
    (scriptEnv.devfdExists 7 false = false →
      (set_cmnd_fd scriptEnv alwaysDefs scriptSt (some 7) false).cmnd_fd =
        none ∧
      fdLookup (set_cmnd_fd scriptEnv alwaysDefs scriptSt (some 7) false).fds 7 =
        none) ∧
    fdLookup (set_cmnd_fd scriptEnv alwaysDefs scriptSt (some 7) false).fds 4 =
      none :=
  claim_C8_theorem scriptEnv alwaysDefs scriptSt 7 4
    ⟨"/usr/local/bin/deploy", true⟩ false (by decide) rfl (by decide)
    (by decide) (by decide)

/-- When the digest list is nonempty and the read-only open succeeds,
open_cmnd opens a fresh descriptor on the path. -/
theorem open_cmnd_opens (env : Env) (defs : Defaults) (path : String)
    (d : Nat) (ds : List Nat) (st : ProcState)
    (hok : env.openOk path = true) :
    open_cmnd env defs path (d :: ds) st =
      (true, some st.nextFd,
        { st with fds := (st.nextFd, ⟨path, true⟩) :: st.fds,
                  nextFd := st.nextFd + 1 }) := by
  unfold open_cmnd
  rw [if_neg fun h => List.cons_ne_nil d ds h.2, if_pos hok]

/-- The done label of the glob strategy fails when the candidate was
cleared. -/
theorem globFinish_none (env : Env) (defs : Defaults) (st : ProcState)
    (sc : String) (args : Option String) (pivoted : Bool) (fd : Option Nat) :
    (globFinish env defs st sc args pivoted none fd).1 = false := rfl

/-- In the exact-path pass, an environment in which the user command's
own digest mismatches - while its open, stat, intercept and inode
checks pass - never produces a done candidate: the loop always
exhausts, and it raises bad_digest exactly when the user command occurs
among the remaining entries. -/
theorem globExactLoop_poison (env : Env) (defs : Defaults)
    (intercepted : Bool) (d : Nat) (ds : List Nat) (uc : String) (sb : Stat)
    (hopen : env.openOk uc = true)
    (hstat : env.statOf uc = some sb)
    (hicept : intercept_ok defs intercepted sb = true)
    (hbad : env.digestOk uc (d :: ds) = false) :
    ∀ (entries : List String) (st : ProcState) (fd : Option Nat) (bd : Bool),
      st.user_cmnd = uc → user_stat_matches st.user_stat sb = true →
      (globExactLoop env defs intercepted (d :: ds) entries st fd bd).1 =
        none ∧
      (globExactLoop env defs intercepted (d :: ds) entries st fd bd).2.2.2 =
        (bd || decide (uc ∈ entries)) := by
  intro entries
  induction entries with
  | nil =>
    intro st fd bd h1 h2
    simp [globExactLoop]
  | cons cp rest ih =>
    intro st fd bd h1 h2
    unfold globExactLoop
    dsimp only
    rw [closeOpt_user_cmnd, h1]
    by_cases hcp : cp = uc
    · rw [if_neg (by simp [hcp]), hcp]
      rw [open_cmnd_opens env defs uc d ds (closeOpt st fd) hopen]
      dsimp only
      rw [if_neg (by simp)]
      unfold do_stat
      rw [hstat]
      dsimp only
      rw [if_neg (by simp [hicept])]
      rw [if_pos (by simp [h2])]
      unfold digest_matches
      dsimp only
      rw [hbad]
      rw [if_pos (by simp)]
      have hrec := ih
        { closeOpt st fd with
            fds := ((closeOpt st fd).nextFd, ⟨uc, true⟩) :: (closeOpt st fd).fds,
            nextFd := (closeOpt st fd).nextFd + 1 }
        (some (closeOpt st fd).nextFd) true (by simp [h1]) (by simp [h2])
      refine ⟨hrec.1, ?_⟩
      rw [hrec.2]
      simp [List.mem_cons]
    · rw [if_pos hcp]
      have hrec := ih (closeOpt st fd) none bd (by simp [h1]) (by simp [h2])
      refine ⟨hrec.1, ?_⟩
      rw [hrec.2]
      have hne2 : ¬uc = cp := fun h => hcp h.symm
      simp [List.mem_cons, hne2]

/-- Claim C4: in the inode-mode glob strategy, when the exact-path pass
sees the user command among the expansion with passing open, stat,
intercept and inode-identity checks but a mismatching digest, the whole
match fails - the basename pass is skipped - even though another
expansion entry might have matched there with a valid digest. -/
theorem claim_C4_theorem (env : Env) (defs : Defaults) (st : ProcState)
    (sc : String) (args : Option String) (pivoted intercepted : Bool)
    (d : Nat) (ds : List Nat) (sb : Stat)
    (habs : strStartsWith st.user_cmnd "/" = true)
    (hmem : st.user_cmnd ∈ env.globExpand sc)
    (hopen : env.openOk st.user_cmnd = true)
    (hstat : env.statOf st.user_cmnd = some sb)
    (hicept : intercept_ok defs intercepted sb = true)
    (hus : user_stat_matches st.user_stat sb = true)
    (hbad : env.digestOk st.user_cmnd (d :: ds) = false) :
    (command_matches_glob env defs Mode.inode st sc args pivoted intercepted
      (d :: ds)).1 = false := by
  unfold command_matches_glob
  dsimp only
  split
  · rfl
  · cases hgl : env.globExpand sc with
    | nil => rfl
    | cons e es =>
      dsimp only
      obtain ⟨hp1, hp2⟩ := globExactLoop_poison env defs intercepted d ds
        st.user_cmnd sb hopen hstat hicept hbad (e :: es) st none false rfl hus
      rw [hp1]
      dsimp only
      rw [hp2]
      rw [hgl] at hmem
      rw [if_pos (by simp [hmem])]
      exact globFinish_none env defs _ sc args pivoted _

/-- Witness for C4 at a concrete input: rule /opt/* expanding to the
user command /opt/a/tool (digest mismatch) and /opt/b/tool (same inode
identity, digest fine); the strategy still fails. -/
theorem claim_C4_witness :
    (command_matches_glob poisonEnv baseDefs Mode.inode poisonSt "/opt/*" none
      false false [7]).1 = false :=
  claim_C4_theorem poisonEnv baseDefs poisonSt "/opt/*" none false false 7 []
    ⟨1, 2, false⟩ (by decide) (by decide) (by decide) (by decide) (by decide)
    (by decide) (by decide)

/-- Under an allocator that always fails, the exact-path pass can only
reach the done label with a cleared candidate. -/
theorem globExactLoop_nostrdup (env : Env) (defs : Defaults)
    (intercepted : Bool) (digests : List Nat)
    (hok : ∀ s, env.strdupOk s = false) :
    ∀ (entries : List String) (st : ProcState) (fd : Option Nat) (bd : Bool)
      (cp : Option String),
      (globExactLoop env defs intercepted digests entries st fd bd).1 =
        some cp → cp = none := by
  intro entries
  induction entries with
  | nil =>
    intro st fd bd cp h
    simp [globExactLoop] at h
  | cons e rest ih =>
    intro st fd bd cp h
    unfold globExactLoop at h
    dsimp only at h
    repeat' split at h
    all_goals first
      | exact ih _ _ _ _ h
      | simp_all [hok]

/-- Under an allocator that always fails, a basename pass over entries
none of which is a directory spec neither returns through the directory
matcher nor reaches the done label with a live candidate. -/
theorem globBaseLoop_nostrdup (env : Env) (defs : Defaults)
    (pivoted intercepted : Bool) (digests : List Nat)
    (hok : ∀ s, env.strdupOk s = false) :
    ∀ (entries : List String) (st : ProcState) (fd : Option Nat),
      (∀ e ∈ entries, strEndsWith e "/" = false) →
      (globBaseLoop env defs pivoted intercepted digests entries st fd).1 ≠
        GlobBaseOut.dirMatch ∧
      ∀ cp,
        (globBaseLoop env defs pivoted intercepted digests entries st fd).1 =
          GlobBaseOut.doneWith cp → cp = none := by
  intro entries
  induction entries with
  | nil =>
    intro st fd _
    constructor
    · simp [globBaseLoop]
    · intro cp h
      simp [globBaseLoop] at h
  | cons e rest ih =>
    intro st fd hends
    have hdir : strEndsWith e "/" = false := hends e (List.mem_cons_self e rest)
    have hrest : ∀ x ∈ rest, strEndsWith x "/" = false :=
      fun x hx => hends x (List.mem_cons_of_mem e hx)
    unfold globBaseLoop
    dsimp only
    rw [if_neg (by simp [hdir])]
    repeat' split
    all_goals first
      | exact ih _ _ hrest
      | simp_all [hok]

/-- Claim C2 (amended): allocation failure while publishing safe_cmnd
is fail-closed in the normal matcher (for non-directory rules) and in
the glob matcher (over non-directory expansion entries); the
directory-prefix matcher is the exception exhibited by the
counterexample. -/
theorem claim_C2_theorem :
    (∀ (env : Env) (defs : Defaults) (st : ProcState) (sc : String)
        (args : Option String) (pivoted intercepted : Bool)
        (digests : List Nat),
      (∀ s, env.strdupOk s = false) → strEndsWith sc "/" = false →
      (command_matches_normal env defs Mode.inode st sc args pivoted
        intercepted digests).1 = false) ∧
    (∀ (env : Env) (defs : Defaults) (st : ProcState) (sc : String)
        (args : Option String) (pivoted intercepted : Bool)
        (digests : List Nat),
      (∀ s, env.strdupOk s = false) →
      (∀ e ∈ env.globExpand sc, strEndsWith e "/" = false) →
      (command_matches_glob env defs Mode.inode st sc args pivoted intercepted
        digests).1 = false) := by
  constructor
  · intro env defs st sc args pivoted intercepted digests hok hnd
    unfold command_matches_normal
    dsimp only
    rw [if_neg (by simp [hnd])]
    repeat' split
    all_goals simp_all [hok]
  · intro env defs st sc args pivoted intercepted digests hok hends
    unfold command_matches_glob
    dsimp only
    split
    · rfl
    · cases hgl : env.globExpand sc with
      | nil => rfl
      | cons e es =>
        dsimp only
        rw [hgl] at hends
        by_cases habs : strStartsWith st.user_cmnd "/" = true
        · rw [if_pos habs]
          cases hq : (globExactLoop env defs intercepted digests (e :: es) st
              none false).1 with
          | some cp =>
            dsimp only
            have hcp := globExactLoop_nostrdup env defs intercepted digests hok
              (e :: es) st none false cp hq
            subst hcp
            exact globFinish_none env defs _ sc args pivoted _
          | none =>
            dsimp only
            split
            · exact globFinish_none env defs _ sc args pivoted _
            · obtain ⟨hd, hdone⟩ := globBaseLoop_nostrdup env defs pivoted
                intercepted digests hok (e :: es) _ _ hends
              cases hb : (globBaseLoop env defs pivoted intercepted digests
                  (e :: es)
                  (globExactLoop env defs intercepted digests (e :: es) st
                    none false).2.1
                  (globExactLoop env defs intercepted digests (e :: es) st
                    none false).2.2.1).1 with
              | dirMatch => exact absurd hb hd
              | doneWith cp =>
                dsimp only
                have hcp := hdone cp hb
                subst hcp
                exact globFinish_none env defs _ sc args pivoted _
              | exhausted =>
                dsimp only
                exact globFinish_none env defs _ sc args pivoted _
        · rw [if_neg habs]
          dsimp only
          simp only [Bool.false_eq_true, if_false]
          obtain ⟨hd, hdone⟩ := globBaseLoop_nostrdup env defs pivoted
            intercepted digests hok (e :: es) st none hends
          cases hb : (globBaseLoop env defs pivoted intercepted digests
              (e :: es) st none).1 with
          | dirMatch => exact absurd hb hd
          | doneWith cp =>
            dsimp only
            have hcp := hdone cp hb
            subst hcp
            exact globFinish_none env defs _ sc args pivoted _
          | exhausted =>
            dsimp only
            exact globFinish_none env defs _ sc args pivoted _

/-- Counterexample for C2 as stated: in the inode directory matcher,
with every check passing but strdup failing, the match still returns
true while safe_cmnd is left cleared. -/
theorem claim_C2_counterexample :
    noAllocEnv.strdupOk "/bin//ls" = false ∧
    (command_matches_dir noAllocEnv baseDefs Mode.inode dirAllocSt "/bin/" 5
      false false []).1 = true ∧
    ((command_matches_dir noAllocEnv baseDefs Mode.inode dirAllocSt "/bin/" 5
      false false []).2).safe_cmnd = none := by
  refine ⟨rfl, ?_, ?_⟩ <;> decide

/-- Witness for the amended C2 at a concrete input: the normal matcher
run on /bin/ls with a failing allocator returns false. -/
theorem claim_C2_witness :
    (command_matches_normal noAllocEnv baseDefs Mode.inode baseSt "/bin/ls"
      none false false []).1 = false :=
  claim_C2_theorem.1 noAllocEnv baseDefs baseSt "/bin/ls" none false false []
    (fun _ => rfl) (by decide)

/-! Safe-cmnd preservation for the strategies that never publish a
path, and case lemmas for those that publish only on success. -/

theorem all_safe (env : Env) (defs : Defaults) (mode : Mode) (st : ProcState)
    (pivoted intercepted : Bool) (digests : List Nat) :
    ((command_matches_all env defs mode st pivoted intercepted
      digests).2).safe_cmnd = st.safe_cmnd := by
  unfold command_matches_all
  dsimp only
  repeat' split
  all_goals simp

theorem fnmatch_safe (env : Env) (defs : Defaults) (mode : Mode)
    (st : ProcState) (sc : String) (args : Option String)
    (pivoted intercepted : Bool) (digests : List Nat) :
    ((command_matches_fnmatch env defs mode st sc args pivoted intercepted
      digests).2).safe_cmnd = st.safe_cmnd := by
  unfold command_matches_fnmatch
  dsimp only
  repeat' split
  all_goals simp

theorem regex_safe (env : Env) (defs : Defaults) (mode : Mode)
    (st : ProcState) (sc : String) (args : Option String)
    (pivoted intercepted : Bool) (digests : List Nat) :
    ((command_matches_regex env defs mode st sc args pivoted intercepted
      digests).2).safe_cmnd = st.safe_cmnd := by
  unfold command_matches_regex
  dsimp only
  repeat' split
  all_goals simp

/-- The directory matcher either reports a match or leaves safe_cmnd
untouched. -/
theorem dir_cases (env : Env) (defs : Defaults) (mode : Mode)
    (st : ProcState) (d : String) (n : Nat) (pivoted intercepted : Bool)
    (digests : List Nat) :
    (command_matches_dir env defs mode st d n pivoted intercepted
      digests).1 = true ∨
    ((command_matches_dir env defs mode st d n pivoted intercepted
      digests).2).safe_cmnd = st.safe_cmnd := by
  unfold command_matches_dir
  cases mode <;> dsimp only <;> repeat' split
  all_goals first | (left; rfl) | (right; simp)

/-- With a never-failing allocator, the normal matcher either reports a
match or leaves safe_cmnd untouched. -/
theorem normal_cases (env : Env) (defs : Defaults) (mode : Mode)
    (st : ProcState) (sc : String) (args : Option String)
    (pivoted intercepted : Bool) (digests : List Nat)
    (hok : ∀ s, env.strdupOk s = true) :
    (command_matches_normal env defs mode st sc args pivoted intercepted
      digests).1 = true ∨
    ((command_matches_normal env defs mode st sc args pivoted intercepted
      digests).2).safe_cmnd = st.safe_cmnd := by
  unfold command_matches_normal
  cases mode with
  | inode =>
    dsimp only
    split
    · exact dir_cases env defs Mode.inode st sc sc.length pivoted intercepted
        digests
    · repeat' split
      all_goals first
        | (left; rfl)
        | exact absurd (hok _) (by assumption)
        | (right; simp)
  | nameOnly =>
    dsimp only
    split
    · exact dir_cases env defs Mode.nameOnly st sc sc.length pivoted
        intercepted digests
    · repeat' split
      all_goals first
        | (left; rfl)
        | exact absurd (hok _) (by assumption)
        | (right; simp)

@[simp]
theorem restore_user_safe (st : ProcState)
    (saved : Option (String × Option Stat)) :
    (restore_user st saved).safe_cmnd = st.safe_cmnd := by
  cases saved <;> rfl

@[simp]
theorem unpivot_root_safe (st : ProcState)
    (saved : Option (String × String)) :
    (unpivot_root st saved).safe_cmnd = st.safe_cmnd := by
  cases saved <;> rfl

@[simp]
theorem apply_reset_safe (env : Env) (st : ProcState) :
    ((apply_reset env st).1).safe_cmnd = st.safe_cmnd := rfl

/-- With a never-failing allocator, any strategy other than the
inode-mode glob strategy either reports a match or leaves safe_cmnd
untouched. -/
theorem strategy_cases (env : Env) (defs : Defaults) (mode : Mode)
    (st : ProcState) (sc args : Option String) (pivoted intercepted : Bool)
    (digests : List Nat)
    (hok : ∀ s, env.strdupOk s = true)
    (hng : selects_glob defs mode sc = false) :
    (command_matches_strategy env defs mode st sc args pivoted intercepted
      digests).1 = true ∨
    ((command_matches_strategy env defs mode st sc args pivoted intercepted
      digests).2).safe_cmnd = st.safe_cmnd := by
  unfold command_matches_strategy
  cases sc with
  | none => exact Or.inr (all_safe env defs mode st pivoted intercepted digests)
  | some c =>
    dsimp only
    split
    · exact Or.inr (regex_safe env defs mode st c args pivoted intercepted
        digests)
    · split
      · repeat' split
        all_goals first | (left; rfl) | (right; rfl)
      · split
        · split
          · exact Or.inr (fnmatch_safe env defs mode st c args pivoted
              intercepted digests)
          · cases mode with
            | inode =>
              exfalso
              unfold selects_glob at hng
              simp_all
            | nameOnly =>
              unfold command_matches_glob
              dsimp only
              exact Or.inr (fnmatch_safe env defs Mode.nameOnly st c args
                pivoted intercepted digests)
        · exact normal_cases env defs mode st c args pivoted intercepted
            digests hok

/-- Claim C1 (amended): whenever command_matches returns false, the
process-wide safe_cmnd is unchanged from before the call, provided the
allocator does not fail and the dispatch does not select the inode-mode
glob strategy; the counterexample shows the glob strategy replaces
safe_cmnd before its argument check, so the claim as stated fails
there, and a failing allocator can likewise clear safe_cmnd on a false
return. -/
theorem claim_C1_theorem (env : Env) (defs : Defaults) (mode : Mode)
    (st : ProcState) (sc args rc : Option String) (intercepted : Bool)
    (digests : List Nat) (b : Bool) (st2 : ProcState)
    (hok : ∀ s, env.strdupOk s = true)
    (hng : selects_glob defs mode sc = false)
    (hr : command_matches env defs mode st sc args rc intercepted digests =
      (b, st2))
    (hb : b = false) :
    st2.safe_cmnd = st.safe_cmnd := by
  subst hb
  unfold command_matches at hr
  cases hplan : chroot_plan defs st rc with
  | none =>
    rw [hplan] at hr
    dsimp only at hr
    injection hr with h1 h2
    rw [← h2]
  | some plan =>
    rw [hplan] at hr
    dsimp only at hr
    cases hp1 : plan.1 with
    | none =>
      rw [hp1] at hr
      dsimp only at hr
      have h1 : (command_matches_strategy env defs mode st sc args false
          intercepted digests).1 = false := by rw [hr]
      rcases strategy_cases env defs mode st sc args false intercepted digests
        hok hng with ht | hs
      · rw [h1] at ht
        exact Bool.noConfusion ht
      · rw [hr] at hs
        exact hs
    | some nr =>
      rw [hp1] at hr
      dsimp only at hr
      cases hpv : pivot_root env st nr with
      | none =>
        rw [hpv] at hr
        dsimp only at hr
        injection hr with h1 h2
        rw [← h2]
      | some pr =>
        rw [hpv] at hr
        dsimp only at hr
        injection hr with h1 h2
        have hsafe1 : pr.1.safe_cmnd = st.safe_cmnd := by
          unfold pivot_root at hpv
          split at hpv
          · injection hpv with hpr
            rw [← hpr]
          · exact Option.noConfusion hpv
        have hmid : (if plan.2 = true then (apply_reset env pr.1).1
            else pr.1).safe_cmnd = st.safe_cmnd := by
          split <;> simp [hsafe1]
        rcases strategy_cases env defs mode
          (if plan.2 = true then (apply_reset env pr.1).1 else pr.1) sc args
          true intercepted digests hok hng with ht | hs
        · rw [h1] at ht
          exact Bool.noConfusion ht
        · rw [← h2]
          simp [hs, hmid]

/-- Counterexample for C1 as stated: the inode glob strategy finds
/bin/ls via the exact-path pass and replaces safe_cmnd, then the
argument matcher fails, so the call returns false with safe_cmnd
changed. -/
theorem claim_C1_counterexample :
    (command_matches baseEnv baseDefs Mode.inode baseSt (some "/bin/l*")
      (some "x") none false []).1 = false ∧
    ((command_matches baseEnv baseDefs Mode.inode baseSt (some "/bin/l*")
      (some "x") none false []).2).safe_cmnd ≠ baseSt.safe_cmnd := by
  constructor <;> decide

/-- Witness for the amended C1 at a concrete input: a normal-strategy
digest mismatch returns false and leaves safe_cmnd untouched. -/
theorem claim_C1_witness :
    ({ baseSt with nextFd := 4 } : ProcState).safe_cmnd =
      baseSt.safe_cmnd :=
  claim_C1_theorem baseEnv baseDefs Mode.inode baseSt (some "/bin/ls") none
    none false [5] false { baseSt with nextFd := 4 } (fun _ => rfl)
    (by decide) (by decide) rfl

/-- A true verdict from the strategy selection on a rule command that
is neither a regex nor absolute can only come from the pseudo-command
branch: the command is list or sudoedit, equals user_cmnd, and the args
match; the state is returned unchanged. -/
theorem strategy_pseudo (env : Env) (defs : Defaults) (mode : Mode)
    (st : ProcState) (c : String) (args : Option String)
    (pivoted intercepted : Bool) (digests : List Nat) (st2 : ProcState)
    (h1 : strStartsWith c "^" = false)
    (h2 : strStartsWith c "/" = false)
    (hr : command_matches_strategy env defs mode st (some c) args pivoted
      intercepted digests = (true, st2)) :
    (c = "list" ∨ c = "sudoedit") ∧ st.user_cmnd = c ∧
      command_args_match env st c args = true := by
  unfold command_matches_strategy at hr
  dsimp only at hr
  rw [if_neg (by simp [h1]), if_pos (by simp [h2])] at hr
  split at hr
  case isTrue hcond =>
    split at hr
    case isTrue hcond2 => exact ⟨hcond, hcond2.1, hcond2.2⟩
    case isFalse _ =>
      injection hr with hb
      exact Bool.noConfusion hb
  case isFalse _ =>
    injection hr with hb
    exact Bool.noConfusion hb

/-- Claim C6: for a rule command that does not start with a caret and
does not start with a slash, command_matches returns true only when the
command is exactly list or sudoedit, the user command in effect at the
check (after any chroot re-resolution) is string-equal to it, and the
argument matcher accepts. -/
theorem claim_C6_theorem (env : Env) (defs : Defaults) (mode : Mode)
    (st : ProcState) (c : String) (args rc : Option String)
    (intercepted : Bool) (digests : List Nat) (st2 : ProcState)
    (h1 : strStartsWith c "^" = false)
    (h2 : strStartsWith c "/" = false)
    (hr : command_matches env defs mode st (some c) args rc intercepted
      digests = (true, st2)) :
    (c = "list" ∨ c = "sudoedit") ∧
    ∃ plan, chroot_plan defs st rc = some plan ∧
      (mid_state env st plan).user_cmnd = c ∧
      command_args_match env (mid_state env st plan) c args = true := by
  unfold command_matches at hr
  cases hplan : chroot_plan defs st rc with
  | none =>
    rw [hplan] at hr
    dsimp only at hr
    injection hr with hb
    exact Bool.noConfusion hb
  | some plan =>
    rw [hplan] at hr
    dsimp only at hr
    cases hp1 : plan.1 with
    | none =>
      rw [hp1] at hr
      dsimp only at hr
      obtain ⟨ha, hu, hc⟩ := strategy_pseudo env defs mode st c args false
        intercepted digests st2 h1 h2 hr
      refine ⟨ha, plan, rfl, ?_, ?_⟩
      · unfold mid_state
        rw [hp1]
        exact hu
      · unfold mid_state
        rw [hp1]
        exact hc
    | some nr =>
      rw [hp1] at hr
      dsimp only at hr
      cases hpv : pivot_root env st nr with
      | none =>
        rw [hpv] at hr
        dsimp only at hr
        injection hr with hb
        exact Bool.noConfusion hb
      | some pr =>
        rw [hpv] at hr
        dsimp only at hr
        injection hr with hb hst
        have hr2 : command_matches_strategy env defs mode
            (if plan.2 = true then (apply_reset env pr.1).1 else pr.1)
            (some c) args true intercepted digests =
            (true, (command_matches_strategy env defs mode
              (if plan.2 = true then (apply_reset env pr.1).1 else pr.1)
              (some c) args true intercepted digests).2) :=
          Prod.ext hb rfl
        obtain ⟨ha, hu, hc⟩ := strategy_pseudo env defs mode _ c args true
          intercepted digests _ h1 h2 hr2
        refine ⟨ha, plan, rfl, ?_, ?_⟩
        · unfold mid_state
          rw [hp1]
          dsimp only
          rw [hpv]
          exact hu
        · unfold mid_state
          rw [hp1]
          dsimp only
          rw [hpv]
          exact hc

/-- Witness for C6 at a concrete input: rule command list matching a
user command list with no args. -/
theorem claim_C6_witness :
    (("list" : String) = "list" ∨ ("list" : String) = "sudoedit") ∧
    ∃ plan, chroot_plan baseDefs pseudoSt none = some plan ∧
      (mid_state baseEnv pseudoSt plan).user_cmnd = "list" ∧
      command_args_match baseEnv (mid_state baseEnv pseudoSt plan) "list"
        none = true :=
  claim_C6_theorem baseEnv baseDefs Mode.inode pseudoSt "list" none none
    false [] pseudoSt (by decide) (by decide) (by decide)

end SudoMatch
